import Mathlib

/-!
Verification of the carbonstat metrics aggregator.

This file embeds the two classes of `carbonstat.py` (`Metric` /
`CarbonMetric` and the registry `CarbonStat`) as pure Lean definitions and
proves the specified properties about them.

Modelling conventions:
* Python floats are modelled as rationals (`ℚ`); `float('inf')` and
  `float('-inf')` sentinels become `⊤ : WithTop ℚ` and `⊥ : WithBot ℚ`.
* `time.time()` results are passed in explicitly as a `t : ℚ` argument.
* The Python `dict` held in `CarbonStat.metrics` is modelled as an
  insertion-ordered association list `List (String × CarbonMetric)`;
  `setK` models `d[k] = v` (replace in place, else append, as Python
  dicts do), `findK` models lookup and `updateD` models `d.update(other)`.
* The UDP socket is modelled by an identifier `Option ℕ` together with an
  `Env` record describing what the operating system would do during one
  `send` call: whether `socket(...)` construction succeeds (and which
  handle it yields) and whether `sendto` succeeds.
* Numeric rendering in the wire format (`%s` / `%f`) is abstracted to a
  deterministic decimal rendering (`toString` on `ℚ`), which the spec
  explicitly allows.
-/

/-- Python `%` on integers: result has the sign of the (positive) modulus. -/
def pymod (a n : Int) : Int := (a % n + n) % n

/-- The fields of class `Metric` (`carbonstat.py`, `Metric.__init__`). -/
structure Metric where
  name : String
  simple_value : Option ℚ
  simple_timestamp : Option ℚ
  min : WithTop ℚ
  max : WithBot ℚ
  sum : ℚ
  len : ℕ
  timestamp : Option ℚ
  accumulate : Bool
  extended : Bool
deriving DecidableEq

/-- `Metric.__init__(name)`: fresh metric with empty simple value and
empty extended aggregate. -/
def Metric.mk0 (nm : String) : Metric :=
  ⟨nm, none, none, ⊤, ⊥, 0, 0, none, false, false⟩

/-- `Metric.add(value)` where `value` may be `None` (this happens on the
recovery path in `CarbonStat.send`): `self.simple_value += value`, falling
back to plain assignment when the addition raises `TypeError` (first write,
or any operand being `None`). -/
def Metric.addVal (m : Metric) (v : Option ℚ) (t : ℚ) : Metric :=
  match m.simple_value, v with
  | some x, some w => { m with simple_value := some (x + w), simple_timestamp := some t }
  | _, _ => { m with simple_value := v, simple_timestamp := some t }

/-- `Metric.add(value)` with a numeric argument. -/
def Metric.add (m : Metric) (v : ℚ) (t : ℚ) : Metric :=
  m.addVal (some v) t

/-- `Metric.incr(amount)`. -/
def Metric.incr (m : Metric) (amount : ℚ) (t : ℚ) : Metric :=
  m.add amount t

/-- `Metric.decr(amount)`. -/
def Metric.decr (m : Metric) (amount : ℚ) (t : ℚ) : Metric :=
  m.add (-amount) t

/-- `Metric.set(value)`. -/
def Metric.set (m : Metric) (v : ℚ) (t : ℚ) : Metric :=
  { m with simple_value := some v, simple_timestamp := some t }

/-- `Metric.add_ex(value)`: extend the running aggregate. -/
def Metric.add_ex (m : Metric) (v : ℚ) (t : ℚ) : Metric :=
  let m := { m with sum := m.sum + v, len := m.len + 1 }
  let m := if (v : WithTop ℚ) < m.min then { m with min := (v : WithTop ℚ) } else m
  let m := if m.max < (v : WithBot ℚ) then { m with max := (v : WithBot ℚ) } else m
  { m with timestamp := some t }

/-- Property `Metric.avg`: `self.sum / float(self.len)`. -/
def Metric.avg (m : Metric) : ℚ :=
  m.sum / (m.len : ℚ)

/-- Class `CarbonMetric(Metric)`: a metric plus the namespace captured at
construction time. -/
structure CarbonMetric extends Metric where
  ns : String
deriving DecidableEq

/-- `CarbonMetric.__init__(name, namespace)`. -/
def CarbonMetric.mk0 (nm nsp : String) : CarbonMetric :=
  ⟨Metric.mk0 nm, nsp⟩

/-- `Metric.add` lifted to `CarbonMetric` (Python mutates the inherited
fields in place). -/
def CarbonMetric.add (m : CarbonMetric) (v : ℚ) (t : ℚ) : CarbonMetric :=
  { m with toMetric := m.toMetric.add v t }

/-- `Metric.addVal` lifted to `CarbonMetric`. -/
def CarbonMetric.addVal (m : CarbonMetric) (v : Option ℚ) (t : ℚ) : CarbonMetric :=
  { m with toMetric := m.toMetric.addVal v t }

/-- The qualified name used by `CarbonMetric.__str__`:
`'%s.%s' % (self.ns, self.name) if self.ns else self.name`. -/
def CarbonMetric.qname (m : CarbonMetric) : String :=
  if m.ns ≠ "" then m.ns ++ "." ++ m.name else m.name

/-- Rendering of an optional number (`str` of a float or of `None`). -/
def fmtOpt : Option ℚ → String
  | none => "None"
  | some q => toString q

/-- Rendering of the `min` field (`float('inf')` prints as `inf`). -/
def fmtTop : WithTop ℚ → String :=
  WithTop.recTopCoe "inf" toString

/-- Rendering of the `max` field (`float('-inf')` prints as `-inf`). -/
def fmtBot : WithBot ℚ → String :=
  WithBot.recBotCoe "-inf" toString

/-- The simple line of `CarbonMetric.__str__`:
`'%s %s %f\n' % (name, self.simple_value, self.simple_timestamp)`. -/
def CarbonMetric.simpleLine (m : CarbonMetric) : String :=
  m.qname ++ " " ++ fmtOpt m.simple_value ++ " " ++ fmtOpt m.simple_timestamp ++ "\n"

/-- The three extended lines of `CarbonMetric.__str__`
(`min`, `avg`, `max`, joined by newlines, with a trailing newline). -/
def CarbonMetric.extLines (m : CarbonMetric) : String :=
  String.intercalate "\n"
    [ m.qname ++ ".min " ++ fmtTop m.min ++ " " ++ fmtOpt m.timestamp,
      m.qname ++ ".avg " ++ toString m.avg ++ " " ++ fmtOpt m.timestamp,
      m.qname ++ ".max " ++ fmtBot m.max ++ " " ++ fmtOpt m.timestamp ] ++ "\n"

/-- `CarbonMetric.__str__`: starts from the empty string, appends the simple
line when `simple_value is not None`, then the extended lines when
`self.len` is nonzero. -/
def CarbonMetric.str (m : CarbonMetric) : String :=
  (if m.simple_value.isSome then m.simpleLine else "")
    ++ (if m.len ≠ 0 then m.extLines else "")

/-- Association-list lookup, modelling `name in d` / `d[name]` for the
registry's `dict`. -/
def findK : List (String × CarbonMetric) → String → Option CarbonMetric
  | [], _ => none
  | (k', v) :: rest, k => if k' = k then some v else findK rest k

/-- Association-list store, modelling `d[k] = v` on a Python dict: an
existing key keeps its position and gets the new value, a new key is
appended at the end. -/
def setK : List (String × CarbonMetric) → String → CarbonMetric → List (String × CarbonMetric)
  | [], k, v => [(k, v)]
  | (k', v') :: rest, k, v =>
    if k' = k then (k', v) :: rest else (k', v') :: setK rest k v

/-- `d.update(other)` on Python dicts: store every pair of `other`, in
order, into `d`. -/
def updateD (d other : List (String × CarbonMetric)) : List (String × CarbonMetric) :=
  other.foldl (fun acc kv => setK acc kv.1 kv.2) d

/-- The fields of class `CarbonStat` (`CarbonStat.__init__`); `socket`
models `self.__socket` (an acquired transport handle or `None`),
`heartbeat` models `self.__heartbeat` and `sending` models
`self.__sending`. -/
structure CarbonStat where
  host : String
  port : ℕ
  ns : String
  metrics : List (String × CarbonMetric)
  socket : Option ℕ
  heartbeat : Int
  sending : Bool
deriving DecidableEq

/-- `CarbonStat.__init__(host, port, namespace)`. -/
def CarbonStat.mk0 (host : String) (port : ℕ) (nsp : String) : CarbonStat :=
  ⟨host, port, nsp, [], none, -1, false⟩

/-- What the operating system would do during one `send` call: whether
`socket(AF_INET, SOCK_DGRAM)` succeeds and which handle it returns, and
whether `sendto` succeeds. -/
structure Env where
  createOk : Bool
  sockId : ℕ
  sendOk : Bool
deriving DecidableEq

/-- `CarbonStat.__getitem__(name)`:
`self.metrics.setdefault(name, CarbonMetric(name, self.ns))`. -/
def CarbonStat.getOrCreate (st : CarbonStat) (nm : String) : CarbonMetric × CarbonStat :=
  match findK st.metrics nm with
  | some m => (m, st)
  | none =>
    let m := CarbonMetric.mk0 nm st.ns
    (m, { st with metrics := st.metrics ++ [(nm, m)] })

/-- The `CarbonStat.socket` property: return the cached handle if present,
otherwise try to create one (caching it on success); `none` models the
re-raised `socket.error`. -/
def CarbonStat.acquireSocket (st : CarbonStat) (env : Env) : Option (ℕ × CarbonStat) :=
  match st.socket with
  | some s => some (s, st)
  | none =>
    if env.createOk then some (env.sockId, { st with socket := some env.sockId })
    else none

/-- The `CarbonStat.heartbeat` property:
`self.__heartbeat = (self.__heartbeat + 1) % 2 ** 32` and return it. -/
def CarbonStat.heartbeatNext (st : CarbonStat) : Int × CarbonStat :=
  let h := pymod (st.heartbeat + 1) (2 ^ 32)
  (h, { st with heartbeat := h })

/-- The header text built by `CarbonStat.make_header`:
`'heartbeat {} {}\n'`, prefixed by `'{ns}.'` when the namespace is
non-empty. -/
def headerLine (nsp : String) (h : Int) (t : ℚ) : String :=
  let s := "heartbeat " ++ toString h ++ " " ++ toString t ++ "\n"
  if nsp ≠ "" then nsp ++ "." ++ s else s

/-- `CarbonStat.make_header()`: reads the `heartbeat` property (which
increments the counter) and formats the header line. -/
def CarbonStat.make_header (st : CarbonStat) (t : ℚ) : String × CarbonStat :=
  let pr := st.heartbeatNext
  (headerLine pr.2.ns pr.1 t, pr.2)

/-- `CarbonStat.set_namespace(namespace)`. -/
def CarbonStat.set_namespace (st : CarbonStat) (nsp : String) : CarbonStat :=
  { st with ns := nsp }

/-- `self[name].add(value)` inside `CarbonStat.send`: get-or-create the
live metric and mutate it in place (the dict entry gets the mutated
object). `value` is `metric.simple_value`, hence optional. -/
def CarbonStat.applyAdd (st : CarbonStat) (nm : String) (v : Option ℚ) (t : ℚ) : CarbonStat :=
  let pr := st.getOrCreate nm
  { pr.2 with metrics := setK pr.2.metrics nm (pr.1.addVal v t) }

/-- `self[name].accumulate = True` inside `CarbonStat.send`. -/
def CarbonStat.setAccumTrue (st : CarbonStat) (nm : String) : CarbonStat :=
  let pr := st.getOrCreate nm
  { pr.2 with metrics := setK pr.2.metrics nm { pr.1 with accumulate := true } }

/-- One iteration of the `for metric in metrics.values()` loop in
`CarbonStat.send`: handle the accumulate carry-forward, then append
`str(metric)` to the packet. -/
def accumStep (t : ℚ) (acc : CarbonStat × String) (kv : String × CarbonMetric) :
    CarbonStat × String :=
  let st := acc.1
  let m := kv.2
  let st :=
    if m.accumulate then
      let st :=
        if !m.extended then st.applyAdd m.name m.simple_value t
        else { st with metrics := setK st.metrics m.name m }
      st.setAccumTrue m.name
    else st
  (st, acc.2 ++ m.str)

/-- The whole `for metric in metrics.values()` loop of `CarbonStat.send`,
over the detached mapping in insertion order. -/
def accumLoop (st : CarbonStat) (pkt : String) (l : List (String × CarbonMetric)) (t : ℚ) :
    CarbonStat × String :=
  l.foldl (accumStep t) (st, pkt)

/-- The failure-free prefix of `CarbonStat.send` after the re-entrancy
guard: set the guard, detach the metrics mapping, build the header
(incrementing the heartbeat) and run the accumulate/serialization loop.
Returns the resulting registry state and the packet text. -/
def CarbonStat.flushCore (st : CarbonStat) (t : ℚ) : CarbonStat × String :=
  let st1 : CarbonStat := { st with sending := true, metrics := [] }
  let hs := st1.make_header t
  accumLoop hs.2 hs.1 st.metrics t

/-- `CarbonStat.send()`: no-op when already sending; otherwise run
`flushCore`, then attempt socket acquisition and `sendto`.  Both a failed
`socket(...)` construction and a failed `sendto` are caught by the
`except socket.error` clause, which merges the detached mapping back via
`self.metrics.update(metrics)`; the `finally` clause always clears the
guard.  The second component is the packet that was built (`none` on the
re-entrant no-op path). -/
def CarbonStat.send (st : CarbonStat) (env : Env) (t : ℚ) : CarbonStat × Option String :=
  if st.sending then (st, none)
  else
    let fc := st.flushCore t
    match fc.1.acquireSocket env with
    | none =>
      ({ fc.1 with metrics := updateD fc.1.metrics st.metrics, sending := false }, some fc.2)
    | some pr =>
      if env.sendOk then ({ pr.2 with sending := false }, some fc.2)
      else
        ({ pr.2 with metrics := updateD pr.2.metrics st.metrics, sending := false }, some fc.2)

/-- A producer call `stat[name].add(v)`: look up (or create) the metric and
mutate it in place. -/
def CarbonStat.producerAdd (st : CarbonStat) (nm : String) (v : ℚ) (t : ℚ) : CarbonStat :=
  let pr := st.getOrCreate nm
  { pr.2 with metrics := setK pr.2.metrics nm (pr.1.add v t) }

/-- Concatenation of `str(metric)` over an association list, in order: the
body of the packet after the header. -/
def strAll (l : List (String × CarbonMetric)) : String :=
  l.foldl (fun s kv => s ++ kv.2.str) ""

/-- Folding `add_ex` over a list of (value, time) pairs. -/
def addExList (m : Metric) (l : List (ℚ × ℚ)) : Metric :=
  l.foldl (fun m p => m.add_ex p.1 p.2) m

/-- Folding `add` over a list of (value, time) pairs. -/
def addList (m : Metric) (l : List (ℚ × ℚ)) : Metric :=
  l.foldl (fun m p => m.add p.1 p.2) m

/-- Agreement on every field of the registry except the metrics mapping. -/
def frameEq (a b : CarbonStat) : Prop :=
  a.host = b.host ∧ a.port = b.port ∧ a.ns = b.ns ∧ a.socket = b.socket ∧
    a.heartbeat = b.heartbeat ∧ a.sending = b.sending

/-- A concrete simple (non-extended) metric named "a" with the accumulate
flag set and simple value 5, used as a witness input. -/
def wMetric : CarbonMetric :=
  ⟨⟨"a", some 5, none, ⊤, ⊥, 0, 0, none, true, false⟩, ""⟩

/-- A concrete registry holding wMetric, with a cached socket handle 5. -/
def wStat : CarbonStat :=
  ⟨"h", 2003, "", [("a", wMetric)], some 5, 0, false⟩

/-- A concrete registry holding wMetric, with no cached socket handle. -/
def wStatNoSock : CarbonStat :=
  ⟨"h", 2003, "", [("a", wMetric)], none, 0, false⟩

/-- A concrete registry whose heartbeat counter has reached 2 ^ 32 - 1. -/
def wStatWrap : CarbonStat :=
  ⟨"h", 2003, "", [], none, 2 ^ 32 - 1, false⟩

/-- A concrete registry with a flush already in progress. -/
def wStatSending : CarbonStat :=
  ⟨"h", 2003, "", [("a", wMetric)], none, 0, true⟩

/-- Environment where socket creation fails. -/
def envCreateFail : Env := ⟨false, 0, false⟩

/-- Environment where socket creation succeeds (handle 9) but transmission
fails. -/
def envSendFail : Env := ⟨true, 9, false⟩

/-- Environment where everything succeeds. -/
def envOk : Env := ⟨true, 9, true⟩

/-! ### Association-list lemmas -/

theorem findK_setK (d : List (String × CarbonMetric)) (k : String) (v : CarbonMetric)
    (k2 : String) : findK (setK d k v) k2 = if k = k2 then some v else findK d k2 := by
  induction d with
  | nil => simp [findK, setK]
  | cons hd tl ih =>
    obtain ⟨k', v'⟩ := hd
    by_cases h1 : k' = k
    · subst h1
      by_cases h2 : k' = k2 <;> simp [findK, setK, h2]
    · by_cases h2 : k' = k2
      · subst h2
        have hk : ¬ k = k' := fun h => h1 h.symm
        simp [findK, setK, h1, hk]
      · simp [findK, setK, h1, h2, ih]

theorem findK_append_of_found {d : List (String × CarbonMetric)} {k : String}
    {v : CarbonMetric} (l : List (String × CarbonMetric)) (h : findK d k = some v) :
    findK (d ++ l) k = some v := by
  induction d with
  | nil => simp [findK] at h
  | cons hd tl ih =>
    obtain ⟨k', v'⟩ := hd
    by_cases h1 : k' = k
    · simp_all [findK]
    · simp_all [findK]

theorem findK_append_of_none {d : List (String × CarbonMetric)} {k : String}
    (l : List (String × CarbonMetric)) (h : findK d k = none) :
    findK (d ++ l) k = findK l k := by
  induction d with
  | nil => simp [findK]
  | cons hd tl ih =>
    obtain ⟨k', v'⟩ := hd
    by_cases h1 : k' = k
    · simp_all [findK]
    · simp_all [findK]

theorem isSome_findK_setK (d : List (String × CarbonMetric)) (k : String)
    (v : CarbonMetric) (k2 : String) :
    (findK (setK d k v) k2).isSome ↔ (findK d k2).isSome ∨ k = k2 := by
  rw [findK_setK]
  by_cases h : k = k2 <;> simp [h]

theorem isSome_findK_updateD (o : List (String × CarbonMetric)) :
    ∀ d k, (findK (updateD d o) k).isSome ↔
      (findK d k).isSome ∨ (findK o k).isSome := by
  induction o with
  | nil => simp [updateD, findK]
  | cons hd tl ih =>
    intro d k
    obtain ⟨k0, v0⟩ := hd
    have : updateD d ((k0, v0) :: tl) = updateD (setK d k0 v0) tl := rfl
    rw [this, ih, isSome_findK_setK]
    by_cases h : k0 = k <;> simp [findK, h, or_assoc]

theorem mem_keys_of_findK {d : List (String × CarbonMetric)} {k : String}
    {m : CarbonMetric} (h : findK d k = some m) : k ∈ d.map Prod.fst := by
  induction d with
  | nil => simp [findK] at h
  | cons hd tl ih =>
    obtain ⟨k', v'⟩ := hd
    by_cases h1 : k' = k
    · simp [h1]
    · simp only [findK, h1, if_false] at h
      simp [ih h]

theorem findK_updateD_nodup (o : List (String × CarbonMetric))
    (hnd : (o.map Prod.fst).Nodup) :
    ∀ d k, findK (updateD d o) k =
      if (findK o k).isSome then findK o k else findK d k := by
  induction o with
  | nil => simp [updateD, findK]
  | cons hd tl ih =>
    intro d k
    obtain ⟨k0, v0⟩ := hd
    simp only [List.map_cons, List.nodup_cons] at hnd
    have hstep : updateD d ((k0, v0) :: tl) = updateD (setK d k0 v0) tl := rfl
    rw [hstep, ih hnd.2]
    by_cases h : k0 = k
    · subst h
      have htl : findK tl k0 = none := by
        cases hf : findK tl k0 with
        | none => rfl
        | some m => exact absurd (mem_keys_of_findK hf) hnd.1
      simp [htl, findK, findK_setK]
    · have hcons : findK ((k0, v0) :: tl) k = findK tl k := by simp [findK, h]
      rw [hcons, findK_setK]
      simp [h]

/-! ### Metric operation lemmas -/

theorem add_ex_len (m : Metric) (v t : ℚ) : (m.add_ex v t).len = m.len + 1 := by
  simp only [Metric.add_ex]
  split_ifs <;> rfl

theorem add_ex_sum (m : Metric) (v t : ℚ) : (m.add_ex v t).sum = m.sum + v := by
  simp only [Metric.add_ex]
  split_ifs <;> rfl

theorem add_ex_min (m : Metric) (v t : ℚ) :
    (m.add_ex v t).min = min m.min (v : WithTop ℚ) := by
  simp only [Metric.add_ex]
  split_ifs with h1 h2 h2
  · exact (min_eq_right h1.le).symm
  · exact (min_eq_right h1.le).symm
  · exact (min_eq_left (not_lt.mp h1)).symm
  · exact (min_eq_left (not_lt.mp h1)).symm

theorem add_ex_max (m : Metric) (v t : ℚ) :
    (m.add_ex v t).max = max m.max (v : WithBot ℚ) := by
  simp only [Metric.add_ex]
  split_ifs with h1 h2 h2
  · exact (max_eq_right h2.le).symm
  · exact (max_eq_left (not_lt.mp h2)).symm
  · exact (max_eq_right h2.le).symm
  · exact (max_eq_left (not_lt.mp h2)).symm

theorem addExList_len (l : List (ℚ × ℚ)) :
    ∀ m : Metric, (addExList m l).len = m.len + l.length := by
  induction l with
  | nil => simp [addExList]
  | cons p tl ih =>
    intro m
    have : addExList m (p :: tl) = addExList (m.add_ex p.1 p.2) tl := rfl
    rw [this, ih, add_ex_len]
    simp
    omega

theorem addExList_sum (l : List (ℚ × ℚ)) :
    ∀ m : Metric, (addExList m l).sum = m.sum + (l.map Prod.fst).sum := by
  induction l with
  | nil => simp [addExList]
  | cons p tl ih =>
    intro m
    have : addExList m (p :: tl) = addExList (m.add_ex p.1 p.2) tl := rfl
    rw [this, ih, add_ex_sum]
    simp
    ring

theorem addExList_min (l : List (ℚ × ℚ)) :
    ∀ m : Metric, (addExList m l).min =
      (l.map Prod.fst).foldl (fun (a : WithTop ℚ) (v : ℚ) => min a (v : WithTop ℚ)) m.min := by
  induction l with
  | nil => simp [addExList]
  | cons p tl ih =>
    intro m
    have : addExList m (p :: tl) = addExList (m.add_ex p.1 p.2) tl := rfl
    rw [this, ih, add_ex_min]
    rfl

theorem addExList_max (l : List (ℚ × ℚ)) :
    ∀ m : Metric, (addExList m l).max =
      (l.map Prod.fst).foldl (fun (a : WithBot ℚ) (v : ℚ) => max a (v : WithBot ℚ)) m.max := by
  induction l with
  | nil => simp [addExList]
  | cons p tl ih =>
    intro m
    have : addExList m (p :: tl) = addExList (m.add_ex p.1 p.2) tl := rfl
    rw [this, ih, add_ex_max]
    rfl

theorem foldl_min_coe (l : List ℚ) :
    ∀ a : ℚ, l.foldl (fun (x : WithTop ℚ) (v : ℚ) => min x (v : WithTop ℚ)) (a : WithTop ℚ) =
      ((l.foldl min a : ℚ) : WithTop ℚ) := by
  induction l with
  | nil => intro a; rfl
  | cons v tl ih =>
    intro a
    have hc : min (a : WithTop ℚ) (v : WithTop ℚ) = ((min a v : ℚ) : WithTop ℚ) :=
      (WithTop.coe_min a v).symm
    simp only [List.foldl_cons, hc, ih]

theorem foldl_max_coe (l : List ℚ) :
    ∀ a : ℚ, l.foldl (fun (x : WithBot ℚ) (v : ℚ) => max x (v : WithBot ℚ)) (a : WithBot ℚ) =
      ((l.foldl max a : ℚ) : WithBot ℚ) := by
  induction l with
  | nil => intro a; rfl
  | cons v tl ih =>
    intro a
    have hc : max (a : WithBot ℚ) (v : WithBot ℚ) = ((max a v : ℚ) : WithBot ℚ) :=
      (WithBot.coe_max a v).symm
    simp only [List.foldl_cons, hc, ih]

theorem addList_some (l : List (ℚ × ℚ)) :
    ∀ (m : Metric) (x : ℚ), m.simple_value = some x →
      (addList m l).simple_value = some (x + (l.map Prod.fst).sum) := by
  induction l with
  | nil => intro m x h; simp [addList, h]
  | cons p tl ih =>
    intro m x h
    have hstep : addList m (p :: tl) = addList (m.add p.1 p.2) tl := rfl
    have hadd : (m.add p.1 p.2).simple_value = some (x + p.1) := by
      simp [Metric.add, Metric.addVal, h]
    rw [hstep, ih _ _ hadd]
    simp
    ring

/-! ### Registry operation lemmas -/

theorem getOrCreate_found {st : CarbonStat} {nm : String} {m : CarbonMetric}
    (h : findK st.metrics nm = some m) : st.getOrCreate nm = (m, st) := by
  simp [CarbonStat.getOrCreate, h]

theorem getOrCreate_missing {st : CarbonStat} {nm : String}
    (h : findK st.metrics nm = none) :
    st.getOrCreate nm = (CarbonMetric.mk0 nm st.ns,
      { st with metrics := st.metrics ++ [(nm, CarbonMetric.mk0 nm st.ns)] }) := by
  simp [CarbonStat.getOrCreate, h]

theorem frameEq_refl (a : CarbonStat) : frameEq a a := by
  simp [frameEq]

theorem frameEq_trans {a b c : CarbonStat} (h1 : frameEq a b) (h2 : frameEq b c) :
    frameEq a c := by
  obtain ⟨u1, u2, u3, u4, u5, u6⟩ := h1
  obtain ⟨w1, w2, w3, w4, w5, w6⟩ := h2
  exact ⟨u1.trans w1, u2.trans w2, u3.trans w3, u4.trans w4, u5.trans w5, u6.trans w6⟩

theorem frameEq_setMetrics (a : CarbonStat) (l : List (String × CarbonMetric)) :
    frameEq { a with metrics := l } a := by
  simp [frameEq]

theorem frameEq_getOrCreate (st : CarbonStat) (nm : String) :
    frameEq (st.getOrCreate nm).2 st := by
  cases hf : findK st.metrics nm with
  | some m => rw [getOrCreate_found hf]; exact frameEq_refl st
  | none => rw [getOrCreate_missing hf]; exact frameEq_setMetrics st _

theorem frameEq_applyAdd (st : CarbonStat) (nm : String) (v : Option ℚ) (t : ℚ) :
    frameEq (st.applyAdd nm v t) st := by
  unfold CarbonStat.applyAdd
  exact frameEq_trans (frameEq_setMetrics _ _) (frameEq_getOrCreate st nm)

theorem frameEq_setAccumTrue (st : CarbonStat) (nm : String) :
    frameEq (st.setAccumTrue nm) st := by
  unfold CarbonStat.setAccumTrue
  exact frameEq_trans (frameEq_setMetrics _ _) (frameEq_getOrCreate st nm)

theorem frameEq_accumStep (t : ℚ) (acc : CarbonStat × String) (kv : String × CarbonMetric) :
    frameEq (accumStep t acc kv).1 acc.1 := by
  unfold accumStep
  by_cases ha : kv.2.accumulate
  · by_cases he : kv.2.extended
    · simp only [ha, he, if_true, Bool.not_true, Bool.false_eq_true, if_false]
      exact frameEq_trans (frameEq_setAccumTrue _ _) (frameEq_setMetrics _ _)
    · simp only [ha, he, if_true, Bool.not_false, if_true]
      exact frameEq_trans (frameEq_setAccumTrue _ _) (frameEq_applyAdd _ _ _ _)
  · simp only [ha, Bool.false_eq_true, if_false]
    exact frameEq_refl _

theorem accumLoop_cons (st : CarbonStat) (pkt : String) (kv : String × CarbonMetric)
    (l : List (String × CarbonMetric)) (t : ℚ) :
    accumLoop st pkt (kv :: l) t =
      accumLoop (accumStep t (st, pkt) kv).1 (accumStep t (st, pkt) kv).2 l t := by
  simp [accumLoop]

theorem frameEq_accumLoop (t : ℚ) (l : List (String × CarbonMetric)) :
    ∀ st pkt, frameEq (accumLoop st pkt l t).1 st := by
  induction l with
  | nil => intro st pkt; exact frameEq_refl st
  | cons kv tl ih =>
    intro st pkt
    rw [accumLoop_cons]
    exact frameEq_trans (ih _ _) (frameEq_accumStep t (st, pkt) kv)

theorem flushCore_def (st : CarbonStat) (t : ℚ) :
    st.flushCore t =
      accumLoop
        { st with metrics := [], sending := true,
                  heartbeat := pymod (st.heartbeat + 1) (2 ^ 32) }
        (headerLine st.ns (pymod (st.heartbeat + 1) (2 ^ 32)) t) st.metrics t := rfl

theorem flushCore_fields (st : CarbonStat) (t : ℚ) :
    (st.flushCore t).1.host = st.host ∧ (st.flushCore t).1.port = st.port ∧
    (st.flushCore t).1.ns = st.ns ∧ (st.flushCore t).1.socket = st.socket ∧
    (st.flushCore t).1.heartbeat = pymod (st.heartbeat + 1) (2 ^ 32) ∧
    (st.flushCore t).1.sending = true := by
  rw [flushCore_def]
  have h := frameEq_accumLoop t st.metrics
    { st with metrics := [], sending := true,
              heartbeat := pymod (st.heartbeat + 1) (2 ^ 32) }
    (headerLine st.ns (pymod (st.heartbeat + 1) (2 ^ 32)) t)
  obtain ⟨h1, h2, h3, h4, h5, h6⟩ := h
  exact ⟨h1, h2, h3, h4, h5, h6⟩

/-! ### Packet construction lemmas -/

theorem foldl_strAll (l : List (String × CarbonMetric)) :
    ∀ p : String, l.foldl (fun s kv => s ++ kv.2.str) p = p ++ strAll l := by
  induction l with
  | nil => intro p; simp [strAll]
  | cons kv tl ih =>
    intro p
    have h1 : strAll (kv :: tl) = tl.foldl (fun s kv => s ++ kv.2.str) ("" ++ kv.2.str) := rfl
    rw [List.foldl_cons, ih, h1, ih]
    simp [String.append_assoc]

theorem strAll_cons (kv : String × CarbonMetric) (l : List (String × CarbonMetric)) :
    strAll (kv :: l) = kv.2.str ++ strAll l := by
  have h1 : strAll (kv :: l) = l.foldl (fun s kv => s ++ kv.2.str) ("" ++ kv.2.str) := rfl
  rw [h1, foldl_strAll]
  simp

theorem accumStep_snd (t : ℚ) (acc : CarbonStat × String) (kv : String × CarbonMetric) :
    (accumStep t acc kv).2 = acc.2 ++ kv.2.str := rfl

theorem accumLoop_snd (t : ℚ) (l : List (String × CarbonMetric)) :
    ∀ st pkt, (accumLoop st pkt l t).2 = pkt ++ strAll l := by
  induction l with
  | nil => intro st pkt; simp [accumLoop, strAll]
  | cons kv tl ih =>
    intro st pkt
    rw [accumLoop_cons, ih, accumStep_snd, strAll_cons, String.append_assoc]

theorem flushCore_snd (st : CarbonStat) (t : ℚ) :
    (st.flushCore t).2 =
      headerLine st.ns (pymod (st.heartbeat + 1) (2 ^ 32)) t ++ strAll st.metrics := by
  rw [flushCore_def, accumLoop_snd]

/-! ### Key-domain lemmas for the accumulate loop -/

theorem keys_getOrCreate {st : CarbonStat} {nm k : String}
    (h : (findK (st.getOrCreate nm).2.metrics k).isSome) :
    (findK st.metrics k).isSome ∨ k = nm := by
  cases hf : findK st.metrics nm with
  | some m =>
    rw [getOrCreate_found hf] at h
    exact Or.inl h
  | none =>
    rw [getOrCreate_missing hf] at h
    simp only at h
    cases hk : findK st.metrics k with
    | some m2 =>
      exact Or.inl (by simp [hk])
    | none =>
      rw [findK_append_of_none _ hk] at h
      by_cases he : nm = k
      · exact Or.inr he.symm
      · simp [findK, he] at h

theorem keys_applyAdd {st : CarbonStat} {nm : String} {v : Option ℚ} {t : ℚ} {k : String}
    (h : (findK (st.applyAdd nm v t).metrics k).isSome) :
    (findK st.metrics k).isSome ∨ k = nm := by
  unfold CarbonStat.applyAdd at h
  simp only at h
  rw [isSome_findK_setK] at h
  rcases h with h | h
  · exact keys_getOrCreate h
  · exact Or.inr h.symm

theorem keys_setAccumTrue {st : CarbonStat} {nm k : String}
    (h : (findK (st.setAccumTrue nm).metrics k).isSome) :
    (findK st.metrics k).isSome ∨ k = nm := by
  unfold CarbonStat.setAccumTrue at h
  simp only at h
  rw [isSome_findK_setK] at h
  rcases h with h | h
  · exact keys_getOrCreate h
  · exact Or.inr h.symm

theorem keys_accumStep {t : ℚ} {acc : CarbonStat × String} {kv : String × CarbonMetric}
    {k : String} (h : (findK (accumStep t acc kv).1.metrics k).isSome) :
    (findK acc.1.metrics k).isSome ∨ k = kv.2.name := by
  unfold accumStep at h
  by_cases ha : kv.2.accumulate
  · by_cases he : kv.2.extended
    · simp only [ha, he, if_true, Bool.not_true, Bool.false_eq_true, if_false] at h
      rcases keys_setAccumTrue h with h2 | h2
      · simp only at h2
        rw [isSome_findK_setK] at h2
        rcases h2 with h3 | h3
        · exact Or.inl h3
        · exact Or.inr h3.symm
      · exact Or.inr h2
    · simp only [ha, he, if_true, Bool.not_false, if_true] at h
      rcases keys_setAccumTrue h with h2 | h2
      · rcases keys_applyAdd h2 with h3 | h3
        · exact Or.inl h3
        · exact Or.inr h3
      · exact Or.inr h2
  · simp only [ha, Bool.false_eq_true, if_false] at h
    exact Or.inl h

theorem keys_accumLoop (t : ℚ) (l : List (String × CarbonMetric)) :
    ∀ st pkt k, (findK (accumLoop st pkt l t).1.metrics k).isSome →
      (findK st.metrics k).isSome ∨ ∃ kv ∈ l, kv.2.name = k := by
  induction l with
  | nil =>
    intro st pkt k h
    exact Or.inl h
  | cons kv tl ih =>
    intro st pkt k h
    rw [accumLoop_cons] at h
    rcases ih _ _ _ h with h2 | h2
    · rcases keys_accumStep h2 with h3 | h3
      · exact Or.inl h3
      · exact Or.inr ⟨kv, by simp, h3.symm⟩
    · obtain ⟨kv2, hmem, hname⟩ := h2
      exact Or.inr ⟨kv2, by simp [hmem], hname⟩

/-! ### `send` characterization lemmas -/

theorem acquireSocket_cached {st : CarbonStat} {s : ℕ} (env : Env)
    (h : st.socket = some s) : st.acquireSocket env = some (s, st) := by
  simp [CarbonStat.acquireSocket, h]

theorem acquireSocket_some {st : CarbonStat} {env : Env} {pr : ℕ × CarbonStat}
    (h : st.acquireSocket env = some pr) :
    pr.2.metrics = st.metrics ∧ pr.2.heartbeat = st.heartbeat ∧
    pr.2.sending = st.sending ∧ pr.2.ns = st.ns ∧ pr.2.host = st.host ∧
    pr.2.port = st.port := by
  unfold CarbonStat.acquireSocket at h
  cases hs : st.socket with
  | some s =>
    rw [hs] at h
    simp only [Option.some.injEq] at h
    rw [← h]
    exact ⟨rfl, rfl, rfl, rfl, rfl, rfl⟩
  | none =>
    rw [hs] at h
    by_cases hc : env.createOk
    · simp only [hc, if_true, Option.some.injEq] at h
      rw [← h]
      exact ⟨rfl, rfl, rfl, rfl, rfl, rfl⟩
    · simp [hc] at h

theorem acquireSocket_some_socket {st : CarbonStat} {env : Env} {pr : ℕ × CarbonStat}
    (h : st.acquireSocket env = some pr) : pr.2.socket = some pr.1 := by
  unfold CarbonStat.acquireSocket at h
  cases hs : st.socket with
  | some s =>
    rw [hs] at h
    simp only [Option.some.injEq] at h
    rw [← h]
    exact hs
  | none =>
    rw [hs] at h
    by_cases hc : env.createOk
    · simp only [hc, if_true, Option.some.injEq] at h
      rw [← h]
    · simp [hc] at h

theorem send_reentrant {st : CarbonStat} {env : Env} {t : ℚ} (h : st.sending = true) :
    st.send env t = (st, none) := by
  simp [CarbonStat.send, h]

theorem send_eq_of_acquire_none {st : CarbonStat} {env : Env} {t : ℚ}
    (h : st.sending = false) (hacq : (st.flushCore t).1.acquireSocket env = none) :
    st.send env t =
      ({ (st.flushCore t).1 with
          metrics := updateD (st.flushCore t).1.metrics st.metrics,
          sending := false }, some (st.flushCore t).2) := by
  simp [CarbonStat.send, h, hacq]

theorem send_eq_of_acquire_some_ok {st : CarbonStat} {env : Env} {t : ℚ}
    {pr : ℕ × CarbonStat} (h : st.sending = false)
    (hacq : (st.flushCore t).1.acquireSocket env = some pr) (hok : env.sendOk = true) :
    st.send env t = ({ pr.2 with sending := false }, some (st.flushCore t).2) := by
  simp [CarbonStat.send, h, hacq, hok]

theorem send_eq_of_acquire_some_fail {st : CarbonStat} {env : Env} {t : ℚ}
    {pr : ℕ × CarbonStat} (h : st.sending = false)
    (hacq : (st.flushCore t).1.acquireSocket env = some pr) (hok : env.sendOk = false) :
    st.send env t =
      ({ pr.2 with
          metrics := updateD pr.2.metrics st.metrics,
          sending := false }, some (st.flushCore t).2) := by
  simp [CarbonStat.send, h, hacq, hok]

theorem send_snd {st : CarbonStat} {env : Env} {t : ℚ} (h : st.sending = false) :
    (st.send env t).2 = some (st.flushCore t).2 := by
  cases hacq : (st.flushCore t).1.acquireSocket env with
  | none => rw [send_eq_of_acquire_none h hacq]
  | some pr =>
    cases hok : env.sendOk with
    | true => rw [send_eq_of_acquire_some_ok h hacq hok]
    | false => rw [send_eq_of_acquire_some_fail h hacq hok]

theorem send_sending_after {st : CarbonStat} {env : Env} {t : ℚ} (h : st.sending = false) :
    (st.send env t).1.sending = false := by
  cases hacq : (st.flushCore t).1.acquireSocket env with
  | none => rw [send_eq_of_acquire_none h hacq]
  | some pr =>
    cases hok : env.sendOk with
    | true => rw [send_eq_of_acquire_some_ok h hacq hok]
    | false => rw [send_eq_of_acquire_some_fail h hacq hok]

theorem send_heartbeat {st : CarbonStat} {env : Env} {t : ℚ} (h : st.sending = false) :
    (st.send env t).1.heartbeat = pymod (st.heartbeat + 1) (2 ^ 32) := by
  have hfc := (flushCore_fields st t).2.2.2.2.1
  cases hacq : (st.flushCore t).1.acquireSocket env with
  | none =>
    rw [send_eq_of_acquire_none h hacq]
    exact hfc
  | some pr =>
    have hpr := (acquireSocket_some hacq).2.1
    cases hok : env.sendOk with
    | true =>
      rw [send_eq_of_acquire_some_ok h hacq hok]
      exact hpr.trans hfc
    | false =>
      rw [send_eq_of_acquire_some_fail h hacq hok]
      exact hpr.trans hfc

theorem send_fail_metrics {st : CarbonStat} {env : Env} {t : ℚ}
    (h : st.sending = false) (hok : env.sendOk = false) :
    (st.send env t).1.metrics = updateD (st.flushCore t).1.metrics st.metrics := by
  cases hacq : (st.flushCore t).1.acquireSocket env with
  | none => rw [send_eq_of_acquire_none h hacq]
  | some pr =>
    rw [send_eq_of_acquire_some_fail h hacq hok]
    simp only
    rw [(acquireSocket_some hacq).1]

theorem send_socket_cached {st : CarbonStat} (env : Env) (t : ℚ) {s : ℕ}
    (h : st.sending = false) (hs : st.socket = some s) :
    (st.send env t).1.socket = some s := by
  have hfc : (st.flushCore t).1.socket = some s := by
    rw [(flushCore_fields st t).2.2.2.1, hs]
  have hacq := acquireSocket_cached env hfc
  cases hok : env.sendOk with
  | true =>
    rw [send_eq_of_acquire_some_ok h hacq hok]
    exact hfc
  | false =>
    rw [send_eq_of_acquire_some_fail h hacq hok]
    exact hfc

/-! ### Claim theorems -/

/-- C7: for every sequence of add_ex calls with values v1..vn (n ≥ 1) on a
fresh metric, afterwards count (len) is n, sum is the total of the values,
min and max are the least and greatest value, and avg equals sum / n. -/
theorem C7_add_ex_aggregate (nm : String) (p : ℚ × ℚ) (l : List (ℚ × ℚ)) :
    (addExList (Metric.mk0 nm) (p :: l)).len = l.length + 1 ∧
    (addExList (Metric.mk0 nm) (p :: l)).sum = p.1 + (l.map Prod.fst).sum ∧
    (addExList (Metric.mk0 nm) (p :: l)).min =
      (((l.map Prod.fst).foldl min p.1 : ℚ) : WithTop ℚ) ∧
    (addExList (Metric.mk0 nm) (p :: l)).max =
      (((l.map Prod.fst).foldl max p.1 : ℚ) : WithBot ℚ) ∧
    (addExList (Metric.mk0 nm) (p :: l)).avg =
      (p.1 + (l.map Prod.fst).sum) / ((l.length + 1 : ℕ) : ℚ) := by
  have hstep : addExList (Metric.mk0 nm) (p :: l) =
      addExList ((Metric.mk0 nm).add_ex p.1 p.2) l := rfl
  have hm1min : ((Metric.mk0 nm).add_ex p.1 p.2).min = (p.1 : WithTop ℚ) := by
    rw [add_ex_min]
    exact min_eq_right le_top
  have hm1max : ((Metric.mk0 nm).add_ex p.1 p.2).max = (p.1 : WithBot ℚ) := by
    rw [add_ex_max]
    exact max_eq_right bot_le
  have hm1len : ((Metric.mk0 nm).add_ex p.1 p.2).len = 1 := by
    simp [add_ex_len, Metric.mk0]
  have hm1sum : ((Metric.mk0 nm).add_ex p.1 p.2).sum = p.1 := by
    simp [add_ex_sum, Metric.mk0]
  have hlen : (addExList (Metric.mk0 nm) (p :: l)).len = l.length + 1 := by
    rw [hstep, addExList_len, hm1len]
    omega
  have hsum : (addExList (Metric.mk0 nm) (p :: l)).sum = p.1 + (l.map Prod.fst).sum := by
    rw [hstep, addExList_sum, hm1sum]
  refine ⟨hlen, hsum, ?_, ?_, ?_⟩
  · rw [hstep, addExList_min, hm1min, foldl_min_coe]
  · rw [hstep, addExList_max, hm1max, foldl_max_coe]
  · rw [Metric.avg, hlen, hsum]

/-- C8: for every sequence of add calls with numeric values on a fresh
simple metric, simple_value afterwards is the sum of the values; the first
add on an unset simple_value behaves as an assignment (no error is
raised). -/
theorem C8_add_sums (nm : String) (p : ℚ × ℚ) (l : List (ℚ × ℚ)) (v t : ℚ) :
    (addList (Metric.mk0 nm) (p :: l)).simple_value =
      some (p.1 + (l.map Prod.fst).sum) ∧
    ((Metric.mk0 nm).add v t).simple_value = some v := by
  constructor
  · have hstep : addList (Metric.mk0 nm) (p :: l) =
        addList ((Metric.mk0 nm).add p.1 p.2) l := rfl
    have hfirst : ((Metric.mk0 nm).add p.1 p.2).simple_value = some p.1 := by
      simp [Metric.mk0, Metric.add, Metric.addVal]
    rw [hstep, addList_some l _ _ hfirst]
  · simp [Metric.mk0, Metric.add, Metric.addVal]

/-- C6: serialization emits the min/avg/max lines only when the extended
count is nonzero, emits a simple line only when a simple value is set, and
emits the empty string when neither condition holds; a metric with zero
extended observations never carries min/avg/max lines. -/
theorem C6_serializer_guards (m : CarbonMetric) :
    (m.len = 0 → m.str = if m.simple_value.isSome then m.simpleLine else "") ∧
    (m.simple_value = none → m.str = if m.len ≠ 0 then m.extLines else "") ∧
    (m.simple_value = none ∧ m.len = 0 → m.str = "") ∧
    (m.len ≠ 0 →
      m.str = (if m.simple_value.isSome then m.simpleLine else "") ++ m.extLines) := by
  refine ⟨?_, ?_, ?_, ?_⟩
  · intro h
    simp [CarbonMetric.str, h]
  · intro h
    simp [CarbonMetric.str, h]
  · intro h
    simp [CarbonMetric.str, h.1, h.2]
  · intro h
    simp [CarbonMetric.str, h]

/-- C6 witness: a freshly created metric serializes to the empty string. -/
theorem C6_witness : (CarbonMetric.mk0 "a" "").str = "" :=
  (C6_serializer_guards (CarbonMetric.mk0 "a" "")).2.2.1 ⟨rfl, rfl⟩

theorem findK_isSome_of_mem_keys {d : List (String × CarbonMetric)} {k : String}
    (h : k ∈ d.map Prod.fst) : (findK d k).isSome := by
  induction d with
  | nil => simp at h
  | cons hd tl ih =>
    obtain ⟨k', v'⟩ := hd
    by_cases h1 : k' = k
    · simp [findK, h1]
    · simp only [List.map_cons, List.mem_cons] at h
      rcases h with h | h
      · exact absurd h.symm h1
      · simp [findK, h1, ih h]

/-- C5: a re-entrant flush call returns immediately as a no-op leaving the
whole registry state (metrics mapping, heartbeat, guard) unchanged, and
after any non-re-entrant flush the guard is false again, whatever the
transport outcome. -/
theorem C5_reentrancy_guard (st : CarbonStat) (env : Env) (t : ℚ) :
    (st.sending = true → st.send env t = (st, none)) ∧
    (st.sending = false → (st.send env t).1.sending = false) :=
  ⟨fun h => send_reentrant h, fun h => send_sending_after h⟩

/-- C5 witness: a concrete re-entrant call is a no-op, and a concrete failed
flush clears the guard. -/
theorem C5_witness :
    wStatSending.send envOk 0 = (wStatSending, none) ∧
    (wStat.send envSendFail 0).1.sending = false :=
  ⟨(C5_reentrancy_guard wStatSending envOk 0).1 rfl,
   (C5_reentrancy_guard wStat envSendFail 0).2 rfl⟩

/-- C4: the heartbeat counter advances by exactly one per flush attempt
(any transport outcome), does not advance on re-entrant no-op calls, wraps
modulo 2 ^ 32 (a registry at 2 ^ 32 - 1 emits heartbeat 0 in the header of
its next flush), and a fresh registry's first flush emits heartbeat 0. -/
theorem C4_heartbeat_counter (st : CarbonStat) (env : Env) (t : ℚ) :
    (st.sending = false →
      (st.send env t).1.heartbeat = pymod (st.heartbeat + 1) (2 ^ 32)) ∧
    (st.sending = true → (st.send env t).1.heartbeat = st.heartbeat) ∧
    (st.sending = false → st.heartbeat = 2 ^ 32 - 1 →
      (st.send env t).1.heartbeat = 0 ∧
      (st.send env t).2 = some (headerLine st.ns 0 t ++ strAll st.metrics)) ∧
    (∀ h2 p2 nsp, ((CarbonStat.mk0 h2 p2 nsp).send env t).1.heartbeat = 0 ∧
      ((CarbonStat.mk0 h2 p2 nsp).send env t).2 = some (headerLine nsp 0 t)) := by
  have hwrap : pymod (2 ^ 32 - 1 + 1) (2 ^ 32) = 0 := by decide
  have hzero : pymod (-1 + 1) (2 ^ 32) = 0 := by decide
  refine ⟨fun h => send_heartbeat h, fun h => by rw [send_reentrant h],
    fun h hw => ⟨?_, ?_⟩, fun h2 p2 nsp => ⟨?_, ?_⟩⟩
  · rw [send_heartbeat h, hw, hwrap]
  · rw [send_snd h, flushCore_snd, hw, hwrap]
  · have hm : (CarbonStat.mk0 h2 p2 nsp).heartbeat = -1 := rfl
    rw [send_heartbeat rfl, hm, hzero]
  · have hm : (CarbonStat.mk0 h2 p2 nsp).heartbeat = -1 := rfl
    have hns : (CarbonStat.mk0 h2 p2 nsp).ns = nsp := rfl
    have hmm : (CarbonStat.mk0 h2 p2 nsp).metrics = [] := rfl
    rw [send_snd rfl, flushCore_snd, hm, hns, hmm, hzero]
    simp [strAll]

/-- C4 witness: a registry whose counter is at 2 ^ 32 - 1 flushes to
heartbeat 0, and a fresh registry's first flush has heartbeat 0. -/
theorem C4_witness :
    (wStatWrap.send envOk 0).1.heartbeat = 0 ∧
    ((CarbonStat.mk0 "h" 2003 "").send envOk 0).1.heartbeat = 0 :=
  ⟨((C4_heartbeat_counter wStatWrap envOk 0).2.2.1 rfl rfl).1,
   ((C4_heartbeat_counter (CarbonStat.mk0 "h" 2003 "") envOk 0).2.2.2 "h" 2003 "").1⟩

/-- C1: when the transport send fails, the whole detached mapping is merged
back, so every metric name present before the flush is still present via
get-or-create lookup afterwards. -/
theorem C1_fail_preserves_names (st : CarbonStat) (env : Env) (t : ℚ) (k : String)
    (h : st.sending = false) (hfail : env.sendOk = false)
    (hk : (findK st.metrics k).isSome) :
    (findK (st.send env t).1.metrics k).isSome := by
  rw [send_fail_metrics h hfail, isSome_findK_updateD]
  exact Or.inr hk

/-- C1 witness: the metric named "a" survives a concrete failed flush. -/
theorem C1_witness : (findK (wStat.send envSendFail 0).1.metrics "a").isSome :=
  C1_fail_preserves_names wStat envSendFail 0 "a" rfl rfl (by decide)

/-- C3: a simple non-extended metric with the accumulate flag whose flush
fails is restored with its last value a, and a subsequent producer add of b
combines to a + b (not b); the live metric keeps the accumulate flag. -/
theorem C3_accumulate_simple_recovery (st : CarbonStat) (env : Env) (t : ℚ)
    (nm : String) (m : CarbonMetric) (a b t' : ℚ)
    (h : st.sending = false) (hfail : env.sendOk = false)
    (hnd : (st.metrics.map Prod.fst).Nodup)
    (hm : findK st.metrics nm = some m)
    (hacc : m.accumulate = true) ( _hext : m.extended = false)
    (hval : m.simple_value = some a) :
    findK (st.send env t).1.metrics nm = some m ∧
    findK ((st.send env t).1.producerAdd nm b t').metrics nm = some (m.add b t') ∧
    (m.add b t').simple_value = some (a + b) ∧
    (m.add b t').accumulate = true := by
  have hrestored : findK (st.send env t).1.metrics nm = some m := by
    rw [send_fail_metrics h hfail, findK_updateD_nodup st.metrics hnd]
    simp [hm]
  refine ⟨hrestored, ?_, ?_, ?_⟩
  · have hgc := getOrCreate_found hrestored
    simp only [CarbonStat.producerAdd, hgc]
    rw [findK_setK]
    simp
  · simp [CarbonMetric.add, Metric.add, Metric.addVal, hval]
  · simp [CarbonMetric.add, Metric.add, Metric.addVal, hval, hacc]

/-- C3 witness: the concrete accumulate metric (value 5) survives a failed
flush and a later add of 2 yields 5 + 2. -/
theorem C3_witness :
    findK ((wStat.send envSendFail 0).1.producerAdd "a" 2 1).metrics "a" =
      some (wMetric.add 2 1) ∧
    (wMetric.add 2 1).simple_value = some (5 + 2) :=
  ⟨(C3_accumulate_simple_recovery wStat envSendFail 0 "a" wMetric 5 2 1 rfl rfl
      (by decide) (by decide) rfl rfl rfl).2.1,
   (C3_accumulate_simple_recovery wStat envSendFail 0 "a" wMetric 5 2 1 rfl rfl
      (by decide) (by decide) rfl rfl rfl).2.2.1⟩

/-- C2 counterexample: with no cached socket and socket creation failing,
the claim says flush aborts before any metrics are detached, leaving the
registry exactly as it was; in the code the flush cycle runs anyway (the
heartbeat is incremented before the socket is touched), so the registry
state after the failed flush differs from the state before it. -/
theorem C2_createFail_cex : ¬ ((wStatNoSock.send envCreateFail 0).1 = wStatNoSock) := by
  decide

/-- C2 amended: when socket creation fails during flush, the metrics are
nevertheless detached first (the heartbeat advances) and the generic
send-failure recovery merges the whole detached mapping back, so the
mapping is extensionally unchanged, the socket stays unacquired, no
exception escapes, and the guard is cleared. -/
theorem C2_createFail_recovery (st : CarbonStat) (env : Env) (t : ℚ)
    (h : st.sending = false) (hsock : st.socket = none) (hcr : env.createOk = false)
    (hnames : ∀ kv ∈ st.metrics, kv.2.name = kv.1)
    (hnd : (st.metrics.map Prod.fst).Nodup) :
    (∀ k, findK (st.send env t).1.metrics k = findK st.metrics k) ∧
    (st.send env t).1.heartbeat = pymod (st.heartbeat + 1) (2 ^ 32) ∧
    (st.send env t).1.socket = none ∧
    (st.send env t).1.sending = false := by
  have hfc_sock : (st.flushCore t).1.socket = none := by
    rw [(flushCore_fields st t).2.2.2.1, hsock]
  have hacq : (st.flushCore t).1.acquireSocket env = none := by
    unfold CarbonStat.acquireSocket
    rw [hfc_sock]
    simp [hcr]
  have hsend := send_eq_of_acquire_none h hacq
  refine ⟨?_, send_heartbeat h, ?_, send_sending_after h⟩
  · intro k
    rw [hsend]
    simp only
    rw [findK_updateD_nodup st.metrics hnd]
    by_cases hk : (findK st.metrics k).isSome
    · simp [hk]
    · simp only [hk, if_false]
      have hnone : findK st.metrics k = none := by
        cases hf : findK st.metrics k with
        | none => rfl
        | some m => exact absurd (by simp [hf]) hk
      rw [hnone]
      cases hf : findK (st.flushCore t).1.metrics k with
      | none => rfl
      | some m2 =>
        exfalso
        have hfsome : (findK (st.flushCore t).1.metrics k).isSome := by simp [hf]
        rw [flushCore_def] at hfsome
        rcases keys_accumLoop t st.metrics _ _ k hfsome with h2 | h2
        · simp [findK] at h2
        · obtain ⟨kv, hmem, hname⟩ := h2
          have hkk : k ∈ st.metrics.map Prod.fst := by
            have := hnames kv hmem
            rw [this] at hname
            exact List.mem_map.mpr ⟨kv, hmem, hname⟩
          exact hk (findK_isSome_of_mem_keys hkk)
  · rw [hsend]
    simp only
    exact hfc_sock

/-- C2 witness for the amended claim: the metric named "a" maps to the same
object before and after a concrete flush whose socket creation failed. -/
theorem C2_witness :
    findK (wStatNoSock.send envCreateFail 0).1.metrics "a" =
      findK wStatNoSock.metrics "a" :=
  (C2_createFail_recovery wStatNoSock envCreateFail 0 rfl rfl rfl (by decide)
    (by decide)).1 "a"

/-- C9 counterexample: after a concrete failed transport send the cached
socket handle is still in place — the code never clears it, contradicting
the claim that a send failure invalidates the cached handle. -/
theorem C9_socket_cex : ¬ ((wStat.send envSendFail 0).1.socket = none) := by
  decide

/-- C9 amended: a transport-level send failure leaves the cached socket
handle untouched, and the next flush attempt reuses that same handle (the
socket property returns the cached handle without creating a new one). -/
theorem C9_socket_kept (st : CarbonStat) (env env2 : Env) (t : ℚ) (s : ℕ)
    (h : st.sending = false) (hs : st.socket = some s) :
    (st.send env t).1.socket = some s ∧
    (st.send env t).1.acquireSocket env2 = some (s, (st.send env t).1) := by
  have h1 := send_socket_cached env t h hs
  exact ⟨h1, acquireSocket_cached env2 h1⟩

/-- C9 witness: the concrete cached handle 5 survives a failed send. -/
theorem C9_witness : (wStat.send envSendFail 0).1.socket = some 5 :=
  (C9_socket_kept wStat envSendFail envOk 0 5 rfl rfl).1

/-- C10: set_namespace changes only the registry's namespace field; a
metric created before the call keeps (and serializes with) the namespace
captured at its creation, the heartbeat header uses the registry's current
namespace, and metrics created after the call get the new namespace. -/
theorem C10_namespace_capture (st : CarbonStat) (nm nsp : String) (t : ℚ) :
    ((st.set_namespace nsp).host = st.host ∧ (st.set_namespace nsp).port = st.port ∧
     (st.set_namespace nsp).metrics = st.metrics ∧
     (st.set_namespace nsp).socket = st.socket ∧
     (st.set_namespace nsp).heartbeat = st.heartbeat ∧
     (st.set_namespace nsp).sending = st.sending ∧
     (st.set_namespace nsp).ns = nsp) ∧
    (findK st.metrics nm = none →
      ((((st.getOrCreate nm).2).set_namespace nsp).getOrCreate nm).1 =
        CarbonMetric.mk0 nm st.ns ∧
      ((((st.getOrCreate nm).2).set_namespace nsp).getOrCreate nm).1.ns = st.ns) ∧
    ((((st.getOrCreate nm).2).set_namespace nsp).make_header t).1 =
      headerLine nsp (pymod ((st.getOrCreate nm).2.heartbeat + 1) (2 ^ 32)) t ∧
    (∀ nm2, findK ((st.getOrCreate nm).2.set_namespace nsp).metrics nm2 = none →
      (((st.getOrCreate nm).2.set_namespace nsp).getOrCreate nm2).1.ns = nsp) := by
  refine ⟨⟨rfl, rfl, rfl, rfl, rfl, rfl, rfl⟩, ?_, ?_, ?_⟩
  · intro hnone
    have hset : ((st.getOrCreate nm).2).set_namespace nsp =
        { st with metrics := st.metrics ++ [(nm, CarbonMetric.mk0 nm st.ns)],
                  ns := nsp } := by
      rw [getOrCreate_missing hnone]
      rfl
    have hfind : findK ({ st with
        metrics := st.metrics ++ [(nm, CarbonMetric.mk0 nm st.ns)],
        ns := nsp } : CarbonStat).metrics nm = some (CarbonMetric.mk0 nm st.ns) := by
      simp only
      rw [findK_append_of_none _ hnone]
      simp [findK]
    rw [hset, getOrCreate_found hfind]
    exact ⟨rfl, rfl⟩
  · rfl
  · intro nm2 hnone2
    rw [getOrCreate_missing hnone2]
    rfl

/-- C10 witness: a metric created under namespace "old" still carries
namespace "old" after the registry switches to "new". -/
theorem C10_witness :
    ((((CarbonStat.mk0 "h" 2003 "old").getOrCreate "a").2.set_namespace
        "new").getOrCreate "a").1.ns = "old" :=
  ((C10_namespace_capture (CarbonStat.mk0 "h" 2003 "old") "a" "new" 0).2.1 rfl).2
